import Mathlib

/-!
# Verification of the Catena IQS620A LoRaWAN sketch

Shallow embedding of the power-cycle orchestration logic of
`Catena_Iqs620a_lorawan.ino` and of the companion TTN console decoder
`catena-message-0x2f-port-1-decoder-ttn.js`, with theorems settling the
specified properties: uplink encode/decode round trip, flag/field
correspondence, decoder error behaviour, sleep policy, downlink bounds
validation, repeat-count decrement, reboot deadline arithmetic, and the
unprovisioned-failure terminal state of the callback chain.

Machine integers are modelled as `Nat`/`Int` with explicit wrap where the
C or JavaScript arithmetic wraps; JavaScript numbers that can be `NaN` or
`undefined` are modelled by the inductive `JSNum`.
-/

set_option maxRecDepth 4000

/-! ## Compile-time timing constants (enums of the sketch) -/

/-- `CATCFG_T_CYCLE = 6 * 60`: steady-state seconds between transmissions. -/
def CATCFG_T_CYCLE : ℕ := 6 * 60

/-- `CATCFG_T_CYCLE_TEST = 30`. -/
def CATCFG_T_CYCLE_TEST : ℕ := 30

/-- `CATCFG_T_CYCLE_INITIAL = 30`. -/
def CATCFG_T_CYCLE_INITIAL : ℕ := 30

/-- `CATCFG_INTERVAL_COUNT_INITIAL = 10`. -/
def CATCFG_INTERVAL_COUNT_INITIAL : ℕ := 10

/-- `CATCFG_T_REBOOT = 30 * 24 * 60 * 60`: reboot every 30 days. -/
def CATCFG_T_REBOOT : ℕ := 30 * 24 * 60 * 60

/-- `CATCFG_T_WARMUP = 1`. -/
def CATCFG_T_WARMUP : ℕ := 1

/-- `CATCFG_T_SETTLE = 5`. -/
def CATCFG_T_SETTLE : ℕ := 5

/-- `CATCFG_T_OVERHEAD = CATCFG_T_WARMUP + CATCFG_T_SETTLE + 4`. -/
def CATCFG_T_OVERHEAD : ℕ := CATCFG_T_WARMUP + CATCFG_T_SETTLE + 4

/-- `CATCFG_T_MIN = CATCFG_T_OVERHEAD`. -/
def CATCFG_T_MIN : ℕ := CATCFG_T_OVERHEAD

/-- `CATCFG_T_MAX = CATCFG_T_CYCLE < 60*60 ? 60*60 : CATCFG_T_CYCLE`. -/
def CATCFG_T_MAX : ℕ := if CATCFG_T_CYCLE < 60 * 60 then 60 * 60 else CATCFG_T_CYCLE

/-- `CATCFG_INTERVAL_COUNT = 30`: default repeat count for downlinks. -/
def CATCFG_INTERVAL_COUNT : ℕ := 30

/-! ## SleepPolicy: `checkDeepSleep` -/

/-- The inputs read by `checkDeepSleep`: the three operating-flag bits it
tests plus `Serial.dtr()` (debugger / host terminal attached, compiled in
because the target board defines `USBCON`). -/
structure SleepInputs where
  fDeepSleepTest : Bool
  serialDtr : Bool
  fDisableDeepSleep : Bool
  fUnattended : Bool
deriving DecidableEq

/-- Embedding of `checkDeepSleep` (sketch lines 549-581): the if/else-if
chain, in source order.  `true` means deep sleep. -/
def checkDeepSleep (inp : SleepInputs) : Bool :=
  if inp.fDeepSleepTest then
    true
  else if inp.serialDtr then
    false
  else if inp.fDisableDeepSleep then
    false
  else if inp.fUnattended then
    true
  else
    false

/-! ## Cycle timing state, downlink parsing, repeat counters -/

/-- The two process-wide cycle-timing variables `gTxCycle` and
`gTxCycleCount`. -/
structure TxState where
  gTxCycle : ℕ
  gTxCycleCount : ℕ
deriving DecidableEq

/-- `setTxCycleTime(txCycle, txCount)`: stores both values (the printing is
diagnostic only). -/
def setTxCycleTime (txCycle txCount : ℕ) : TxState :=
  ⟨txCycle, txCount⟩

/-- Embedding of `receiveMessage` (sketch lines 729-775) as a state
transformer on the cycle-timing state.  Port 0 is MAC logging only; a
non-port-1 or wrongly sized message is logged and discarded; otherwise the
first two bytes are `(pMessage[0] << 8) | pMessage[1]`, range checked
against `CATCFG_T_MIN`/`CATCFG_T_MAX`, and byte 2 (if present) overrides
the default repeat count. -/
def receiveMessage (st : TxState) (port : ℕ) (msg : List ℕ) : TxState :=
  if port = 0 then
    st
  else if ¬ (port = 1 ∧ 2 ≤ msg.length ∧ msg.length ≤ 3) then
    st
  else
    let txCycle := ((msg.getD 0 0) <<< 8) ||| msg.getD 1 0
    if txCycle < CATCFG_T_MIN ∨ CATCFG_T_MAX < txCycle then
      st
    else
      let txCount := if 3 ≤ msg.length then msg.getD 2 0 else CATCFG_INTERVAL_COUNT
      setTxCycleTime txCycle txCount

/-- Embedding of `updateSleepCounters` (sketch lines 627-647): counts above
one decrement; exactly one resets cycle time to `CATCFG_T_CYCLE` and the
count to zero; zero is left alone. -/
def updateSleepCounters (st : TxState) : TxState :=
  if st.gTxCycleCount > 1 then
    ⟨st.gTxCycle, st.gTxCycleCount - 1⟩
  else if st.gTxCycleCount = 1 then
    ⟨CATCFG_T_CYCLE, 0⟩
  else
    st

/-! ## RebootWatchdog -/

/-- Embedding of `gRebootMs = (CATCFG_T_REBOOT + os_getRndU2() - 32768) * 1000`
(sketch line 368), `rnd` being the 16-bit random value: the arithmetic is
exact in `ℤ` and the store into the `uint32_t` variable takes the result
modulo `2^32`. -/
def gRebootMsOf (rnd : ℕ) : ℕ :=
  ((((CATCFG_T_REBOOT : ℤ) + rnd - 32768) * 1000) % (2 ^ 32)).toNat

/-- Embedding of the reboot test in `settleDoneCb` (sketch line 531):
`uint32_t(millis()) > gRebootMs`.  `nowMs` is elapsed milliseconds since
boot; the cast truncates it to 32 bits. -/
def rebootDue (nowMs rnd : ℕ) : Bool :=
  decide (nowMs % 2 ^ 32 > gRebootMsOf rnd)

/-! ## The callback chain (cycle state machine)

The sketch runs one repeating cycle through deferred callbacks on the
single `sensorJob` slot: `sendBufferDoneCb` (transport completion) arms
either `settleDoneCb` or, on failure while unprovisioned,
`txNotProvisionedCb` (which also calls `gLoRaWAN.Shutdown()`);
`settleDoneCb` sleeps (deep or light) and continues at `sleepDoneCb`;
`sleepDoneCb` arms `warmupDoneCb`; `warmupDoneCb` calls
`startSendingUplink`, the only place a transmit is attempted, whose
completion is again `sendBufferDoneCb`.  `txNotProvisionedCb` prints,
shuts the stack down, sets the LED, and arms nothing. -/

/-- The callbacks of the cycle, as scheduled on the single job slot.
`sendDone fStatus` is the transport completion with its status. -/
inductive CycleCb where
  | sendDone (fStatus : Bool)
  | txNotProvisioned
  | settleDone
  | sleepDone
  | warmupDone
deriving DecidableEq

/-- Which callback invokes `startSendingUplink` (i.e. attempts a
transmit): only `warmupDoneCb` does. -/
def cbTransmits : CycleCb → Bool
  | .warmupDone => true
  | _ => false

/-- What each callback arms next on the single job slot, given the
provisioning state `fProv` and the status `nextStatus` the transport will
report for a transmit started now.  `none` means nothing is armed.
Mirrors `sendBufferDoneCb`, `txNotProvisionedCb`, `settleDoneCb` (the
non-reboot path: both `doDeepSleep` and `doLightSleep` continue at
`sleepDoneCb`), `sleepDoneCb` and `warmupDoneCb`. -/
def cbStep (fProv : Bool) (nextStatus : Bool) : CycleCb → Option CycleCb
  | .sendDone fStatus =>
      if ¬ fStatus ∧ ¬ fProv then some .txNotProvisioned else some .settleDone
  | .txNotProvisioned => none
  | .settleDone => some .sleepDone
  | .sleepDone => some .warmupDone
  | .warmupDone => some (.sendDone nextStatus)

/-- The callback active `n` steps after `c0`, the transport statuses for
successive sends being drawn from `statuses`.  `none` once the chain has
stopped. -/
def cbRun (fProv : Bool) (statuses : ℕ → Bool) (c0 : CycleCb) : ℕ → Option CycleCb
  | 0 => some c0
  | n + 1 =>
      match cbRun fProv statuses c0 n with
      | none => none
      | some c => cbStep fProv (statuses n) c

/-! ## UplinkCodec: the backend JavaScript decoder

`catena-message-0x2f-port-1-decoder-ttn.js` is embedded with JavaScript
number semantics: reading past the end of the byte array yields
`undefined`; `undefined` used in `+` gives `NaN`; bitwise operators such
as `<<` and `&` send their operands through `ToInt32`, which maps
`undefined` and `NaN` to 0 and truncates and wraps everything else.  All
numeric values reachable in this decoder are integers or integer
multiples of `1 / 4096`, which IEEE doubles represent exactly, so exact
rational arithmetic agrees with the JavaScript evaluation. -/

/-- A JavaScript numeric value as it occurs in the decoder: `undefined`
(an out-of-range array read), `NaN`, or an exactly-represented number. -/
inductive JSNum where
  | jsUndefined
  | nan
  | num (q : ℚ)
deriving DecidableEq

/-- `bytes[i]` in JavaScript: the element, or `undefined` out of range. -/
def jsGet (bytes : List ℕ) (i : ℕ) : JSNum :=
  match bytes.get? i with
  | some b => .num b
  | none => .jsUndefined

/-- Truncation toward zero, as the `ToInt32` abstract operation does. -/
def ratTrunc (q : ℚ) : ℤ := if q < 0 then ⌈q⌉ else ⌊q⌋

/-- Signed 32-bit wrap-around. -/
def wrap32 (z : ℤ) : ℤ := (z + 2 ^ 31) % 2 ^ 32 - 2 ^ 31

/-- The `ToInt32` abstract operation: `undefined` and `NaN` map to 0,
numbers truncate toward zero and wrap into the signed 32-bit range. -/
def jsToInt32 : JSNum → ℤ
  | .jsUndefined => 0
  | .nan => 0
  | .num q => wrap32 (ratTrunc q)

/-- JavaScript `x << 8`. -/
def jsShl8 (a : JSNum) : JSNum := .num (wrap32 (jsToInt32 a * 256))

/-- JavaScript `+` on numbers: `NaN` (or `undefined`) poisons the sum. -/
def jsAdd : JSNum → JSNum → JSNum
  | .num qa, .num qb => .num (qa + qb)
  | _, _ => .nan

/-- Truthiness of `x & 2^k` in JavaScript: bit `k` of `ToInt32(x)`. -/
def jsTestBit (a : JSNum) (k : ℕ) : Bool :=
  (jsToInt32 a % 2 ^ 32).toNat.testBit k

/-- JavaScript division by a nonzero constant: `NaN` propagates. -/
def jsDiv (a : JSNum) (c : ℚ) : JSNum :=
  match a with
  | .num q => .num (q / c)
  | _ => .nan

/-- The strict comparison `uFormat === 0x2f` (`NaN` and `undefined`
compare unequal to everything). -/
def jsIs0x2f : JSNum → Bool
  | .num q => decide (q = 47)
  | _ => false

/-- `DecodeU16(Parse)`: `(bytes[i] << 8) + bytes[i+1]`, advancing the
cursor by 2 (the JS advances `Parse.i` inside the helper; here the new
cursor is returned alongside the value). -/
def DecodeU16 (bytes : List ℕ) (i : ℕ) : JSNum × ℕ :=
  (jsAdd (jsShl8 (jsGet bytes i)) (jsGet bytes (i + 1)), i + 2)

/-- `DecodeI16(Parse)`: reinterpret the 16-bit value as signed via
`if (Vraw & 0x8000) Vraw += -0x10000`. -/
def DecodeI16 (bytes : List ℕ) (i : ℕ) : JSNum × ℕ :=
  let r := DecodeU16 bytes i
  (if jsTestBit r.1 15 then jsAdd r.1 (.num (-65536)) else r.1, r.2)

/-- `DecodeV(Parse)`: `DecodeI16(Parse) / 4096.0`. -/
def DecodeV (bytes : List ℕ) (i : ℕ) : JSNum × ℕ :=
  let r := DecodeI16 bytes i
  (jsDiv r.1 4096, r.2)

/-- The object built by `Decoder`: a property is `none` when the
corresponding `if (flags & …)` branch was not taken, and otherwise holds
the assigned JavaScript value. -/
structure DecodedObj where
  vBat : Option JSNum
  vBus : Option JSNum
  boot : Option JSNum
  sarCh0 : Option JSNum
  sarCh1 : Option JSNum
  sarCh2 : Option JSNum
  amplitude : Option JSNum
deriving DecidableEq

/-- The body of `Decoder` after the port and format checks: fetch the
flags byte at index 1, then for each of bits 0..6 in ascending order
conditionally decode the corresponding field, threading the cursor.  The
second component is the final cursor. -/
def DecoderBody (bytes : List ℕ) : DecodedObj × ℕ :=
  let flags := jsGet bytes 1
  let i1 : ℕ := 2
  let vBat : Option JSNum := if jsTestBit flags 0 then some (DecodeV bytes i1).1 else none
  let i2 : ℕ := if jsTestBit flags 0 then (DecodeV bytes i1).2 else i1
  let vBus : Option JSNum := if jsTestBit flags 1 then some (DecodeV bytes i2).1 else none
  let i3 : ℕ := if jsTestBit flags 1 then (DecodeV bytes i2).2 else i2
  let boot : Option JSNum := if jsTestBit flags 2 then some (jsGet bytes i3) else none
  let i4 : ℕ := if jsTestBit flags 2 then i3 + 1 else i3
  let sarCh0 : Option JSNum := if jsTestBit flags 3 then some (DecodeU16 bytes i4).1 else none
  let i5 : ℕ := if jsTestBit flags 3 then (DecodeU16 bytes i4).2 else i4
  let sarCh1 : Option JSNum := if jsTestBit flags 4 then some (DecodeU16 bytes i5).1 else none
  let i6 : ℕ := if jsTestBit flags 4 then (DecodeU16 bytes i5).2 else i5
  let sarCh2 : Option JSNum := if jsTestBit flags 5 then some (DecodeU16 bytes i6).1 else none
  let i7 : ℕ := if jsTestBit flags 5 then (DecodeU16 bytes i6).2 else i6
  let amplitude : Option JSNum := if jsTestBit flags 6 then some (DecodeI16 bytes i7).1 else none
  let i8 : ℕ := if jsTestBit flags 6 then (DecodeI16 bytes i7).2 else i7
  (⟨vBat, vBus, boot, sarCh0, sarCh1, sarCh2, amplitude⟩, i8)

/-- `Decoder(bytes, port)`: `null` unless `port === 1` and
`bytes[0] === 0x2f`; otherwise the decoded object. -/
def Decoder (bytes : List ℕ) (port : ℕ) : Option DecodedObj :=
  if ¬ (port = 1) then none
  else if ¬ (jsIs0x2f (jsGet bytes 0) = true) then none
  else some (DecoderBody bytes).1

/-! ## UplinkCodec: the device encoder `fillBuffer`

The byte-emitting primitives of `TxBuffer_t` (`put`, `putV`, `put2uf`,
`put2sf`) live in the Catena platform library, not in this repository.
They are modelled from the spec: all multi-byte values big-endian,
voltages signed 16-bit fixed-point at scale 1/4096, counts unsigned
16-bit, amplitude signed 16-bit. -/

/-- Two's-complement 16-bit image of an integer. -/
def toU16 (z : ℤ) : ℕ := (z % 65536).toNat

/-- Big-endian 16-bit emit: high byte then low byte. -/
def put2 (u : ℕ) : List ℕ := [u / 256 % 256, u % 256]

/-- Modelled from the spec: `TxBuffer_t::put2uf` emits its argument as an
unsigned 16-bit big-endian value (the C argument type `uint16_t` reduces
it modulo 65536). -/
def put2uf (u : ℕ) : List ℕ := put2 (u % 65536)

/-- Modelled from the spec: `TxBuffer_t::put2sf` emits a signed 16-bit
big-endian value in two's complement. -/
def put2sf (z : ℤ) : List ℕ := put2 (toU16 z)

/-- Modelled from the spec: `TxBuffer_t::putV` emits a voltage as signed
16-bit fixed-point with scale 1/4096 (exact whenever `v * 4096` is an
integer in the signed 16-bit range). -/
def putV (v : ℚ) : List ℕ := put2sf ⌊v * 4096⌋

/-- The measurement data `fillBuffer` reads: the two voltages, whether
the IQS620A proximity sensor was found at boot (`fProximity`), and the
sensor readings (`uint16_t` SAR counts, `int16_t` amplitude). -/
structure Sample where
  vBat : ℚ
  vBus : ℚ
  fProximity : Bool
  sarCountCh0 : ℕ
  sarCountCh1 : ℕ
  sarCountCh2 : ℕ
  amplitude : ℤ

/-- Embedding of `fillBuffer` (sketch lines 406-460): format byte, flags
byte (a placeholder patched after the fields are written — modelled by
emitting the final value in place), battery and bus voltage always, and
the three SAR counts plus the amplitude exactly when `fProximity`.  Each
`flag |= …` of the source appears as a `|||`. -/
def fillBuffer (s : Sample) : List ℕ :=
  let flag0 : ℕ := 0
  let flag1 := flag0 ||| 1
  let flag2 := flag1 ||| 2
  if s.fProximity then
    let flag3 := flag2 ||| 8
    let flag4 := flag3 ||| 16
    let flag5 := flag4 ||| 32
    let flag6 := flag5 ||| 64
    47 :: flag6 :: (putV s.vBat ++ putV s.vBus ++
      put2uf s.sarCountCh0 ++ put2uf s.sarCountCh1 ++ put2uf s.sarCountCh2 ++
      put2sf s.amplitude)
  else
    47 :: flag2 :: (putV s.vBat ++ putV s.vBus)

/-- A voltage the fixed-point encoding represents exactly: `v * 4096` is
an integer in the signed 16-bit range. -/
def representableV (v : ℚ) : Prop :=
  (v * 4096).den = 1 ∧ -32768 ≤ v * 4096 ∧ v * 4096 ≤ 32767

/-- The samples expressible by the encoder: voltages representable,
counts in `uint16_t` range, amplitude in `int16_t` range (these are the
ranges of the C types `fillBuffer` reads). -/
def ValidSample (s : Sample) : Prop :=
  representableV s.vBat ∧ representableV s.vBus ∧
  s.sarCountCh0 < 65536 ∧ s.sarCountCh1 < 65536 ∧ s.sarCountCh2 < 65536 ∧
  -32768 ≤ s.amplitude ∧ s.amplitude ≤ 32767

/-- The decoded object the round trip should produce from a sample:
every field the encoder wrote comes back with its value, every other
field is absent. -/
def expectedDecode (s : Sample) : DecodedObj where
  vBat := some (.num s.vBat)
  vBus := some (.num s.vBus)
  boot := none
  sarCh0 := if s.fProximity then some (.num s.sarCountCh0) else none
  sarCh1 := if s.fProximity then some (.num s.sarCountCh1) else none
  sarCh2 := if s.fProximity then some (.num s.sarCountCh2) else none
  amplitude := if s.fProximity then some (.num (s.amplitude : ℚ)) else none

/-! ## Codec helper lemmas -/

theorem ratTrunc_natCast (n : ℕ) : ratTrunc (n : ℚ) = n := by
  unfold ratTrunc
  rw [if_neg (not_lt.mpr (by positivity))]
  exact Int.floor_natCast n

theorem wrap32_eq (z : ℤ) (h1 : -(2 ^ 31) ≤ z) (h2 : z < 2 ^ 31) : wrap32 z = z := by
  unfold wrap32
  omega

theorem jsToInt32_natCast (n : ℕ) (h : n < 2 ^ 31) : jsToInt32 (.num n) = n := by
  show wrap32 (ratTrunc ((n : ℕ) : ℚ)) = (n : ℤ)
  rw [ratTrunc_natCast]
  exact wrap32_eq _ (by omega) (by omega)

theorem jsShl8_byte (a : ℕ) (h : a < 256) :
    jsShl8 (.num a) = .num ((a * 256 : ℕ) : ℚ) := by
  unfold jsShl8
  rw [jsToInt32_natCast a (by omega)]
  rw [wrap32_eq ((a : ℤ) * 256) (by omega) (by omega)]
  norm_num

theorem jsTestBit_natCast (u k : ℕ) (h : u < 2 ^ 31) :
    jsTestBit (.num u) k = u.testBit k := by
  unfold jsTestBit
  rw [jsToInt32_natCast u h]
  congr 1
  omega

theorem jsGet_eq (bytes : List ℕ) (i b : ℕ) (h : bytes.get? i = some b) :
    jsGet bytes i = .num b := by
  unfold jsGet
  rw [h]

theorem DecodeU16_eq (bytes : List ℕ) (i a b : ℕ)
    (h1 : bytes.get? i = some a) (h2 : bytes.get? (i + 1) = some b)
    (ha : a < 256) (hb : b < 256) :
    DecodeU16 bytes i = (.num ((a * 256 + b : ℕ) : ℚ), i + 2) := by
  unfold DecodeU16
  rw [jsGet_eq bytes i a h1, jsGet_eq bytes (i + 1) b h2, jsShl8_byte a ha]
  unfold jsAdd
  congr 2
  push_cast
  ring

theorem DecodeI16_eq (bytes : List ℕ) (i : ℕ) (m : ℤ)
    (hm1 : -32768 ≤ m) (hm2 : m ≤ 32767)
    (h1 : bytes.get? i = some (toU16 m / 256 % 256))
    (h2 : bytes.get? (i + 1) = some (toU16 m % 256)) :
    DecodeI16 bytes i = (.num (m : ℚ), i + 2) := by
  have hu : toU16 m < 65536 := by
    unfold toU16
    omega
  have hd := DecodeU16_eq bytes i _ _ h1 h2 (by omega) (by omega)
  rw [show toU16 m / 256 % 256 * 256 + toU16 m % 256 = toU16 m from by omega] at hd
  unfold DecodeI16
  rw [hd]
  dsimp only
  rw [jsTestBit_natCast _ 15 (by omega)]
  have htb : (toU16 m).testBit 15 = decide (32768 ≤ toU16 m) := by
    rw [Nat.testBit_to_div_mod, decide_eq_decide]
    omega
  rw [htb]
  by_cases hneg : 32768 ≤ toU16 m
  · rw [if_pos (by simpa using hneg)]
    have hz : (toU16 m : ℤ) = m + 65536 := by
      unfold toU16 at hneg ⊢
      omega
    unfold jsAdd
    congr 2
    have hq : ((toU16 m : ℕ) : ℚ) = (m : ℚ) + 65536 := by
      exact_mod_cast congrArg (fun z : ℤ => (z : ℚ)) hz
    rw [hq]
    ring
  · rw [if_neg (by simpa using hneg)]
    have hz : (toU16 m : ℤ) = m := by
      unfold toU16 at hneg ⊢
      omega
    congr 2
    exact_mod_cast congrArg (fun z : ℤ => (z : ℚ)) hz

theorem DecodeV_eq (bytes : List ℕ) (i : ℕ) (v : ℚ) (hv : representableV v)
    (h1 : bytes.get? i = some (toU16 ⌊v * 4096⌋ / 256 % 256))
    (h2 : bytes.get? (i + 1) = some (toU16 ⌊v * 4096⌋ % 256)) :
    DecodeV bytes i = (.num v, i + 2) := by
  obtain ⟨hden, hlo, hhi⟩ := hv
  have hq : (((v * 4096).num : ℤ) : ℚ) = v * 4096 := by
    rw [← Rat.num_div_den (v * 4096), hden]
    simp
  have hfl : ⌊v * 4096⌋ = (v * 4096).num := by
    conv_lhs => rw [← hq]
    exact Int.floor_intCast _
  have hm1 : -32768 ≤ ⌊v * 4096⌋ := by
    rw [hfl]
    by_contra hc
    push_neg at hc
    have : (((v * 4096).num : ℤ) : ℚ) < -32768 := by
      exact_mod_cast hc
    rw [hq] at this
    linarith
  have hm2 : ⌊v * 4096⌋ ≤ 32767 := by
    rw [hfl]
    by_contra hc
    push_neg at hc
    have : (32767 : ℚ) < (((v * 4096).num : ℤ) : ℚ) := by
      exact_mod_cast hc
    rw [hq] at this
    linarith
  have hd := DecodeI16_eq bytes i ⌊v * 4096⌋ hm1 hm2 h1 h2
  unfold DecodeV
  rw [hd]
  dsimp only
  unfold jsDiv
  congr 2
  rw [hfl, hq]
  field_simp

theorem DecodeU16_put2uf (bytes : List ℕ) (i u : ℕ) (hu : u < 65536)
    (h1 : bytes.get? i = some (u % 65536 / 256 % 256))
    (h2 : bytes.get? (i + 1) = some (u % 65536 % 256)) :
    DecodeU16 bytes i = (.num ((u : ℕ) : ℚ), i + 2) := by
  have h := DecodeU16_eq bytes i _ _ h1 h2 (by omega) (by omega)
  rw [show u % 65536 / 256 % 256 * 256 + u % 65536 % 256 = u from by omega] at h
  exact h

/-! ## Theorems: round trip (C1) -/

/-- General form of the round trip: decoding an encoded payload, even
with arbitrary trailing junk appended, recovers the sample — the decoder
reads exactly the flagged fields and nothing further. -/
theorem decode_fillBuffer_append (s : Sample) (hs : ValidSample s) (junk : List ℕ) :
    Decoder (fillBuffer s ++ junk) 1 = some (expectedDecode s) := by
  obtain ⟨hvb, hvu, hc0, hc1, hc2, ha1, ha2⟩ := hs
  cases hfp : s.fProximity with
  | true =>
    have hfill : fillBuffer s =
        [47, 123,
         toU16 ⌊s.vBat * 4096⌋ / 256 % 256, toU16 ⌊s.vBat * 4096⌋ % 256,
         toU16 ⌊s.vBus * 4096⌋ / 256 % 256, toU16 ⌊s.vBus * 4096⌋ % 256,
         s.sarCountCh0 % 65536 / 256 % 256, s.sarCountCh0 % 65536 % 256,
         s.sarCountCh1 % 65536 / 256 % 256, s.sarCountCh1 % 65536 % 256,
         s.sarCountCh2 % 65536 / 256 % 256, s.sarCountCh2 % 65536 % 256,
         toU16 s.amplitude / 256 % 256, toU16 s.amplitude % 256] := by
      unfold fillBuffer putV put2sf put2uf put2
      rw [hfp]
      norm_num
      decide
    have g0 : (fillBuffer s ++ junk).get? 0 = some 47 := by rw [hfill]; rfl
    have g1 : (fillBuffer s ++ junk).get? 1 = some 123 := by rw [hfill]; rfl
    have g2 : (fillBuffer s ++ junk).get? 2 = some (toU16 ⌊s.vBat * 4096⌋ / 256 % 256) := by
      rw [hfill]; rfl
    have g3 : (fillBuffer s ++ junk).get? 3 = some (toU16 ⌊s.vBat * 4096⌋ % 256) := by
      rw [hfill]; rfl
    have g4 : (fillBuffer s ++ junk).get? 4 = some (toU16 ⌊s.vBus * 4096⌋ / 256 % 256) := by
      rw [hfill]; rfl
    have g5 : (fillBuffer s ++ junk).get? 5 = some (toU16 ⌊s.vBus * 4096⌋ % 256) := by
      rw [hfill]; rfl
    have g6 : (fillBuffer s ++ junk).get? 6 = some (s.sarCountCh0 % 65536 / 256 % 256) := by
      rw [hfill]; rfl
    have g7 : (fillBuffer s ++ junk).get? 7 = some (s.sarCountCh0 % 65536 % 256) := by
      rw [hfill]; rfl
    have g8 : (fillBuffer s ++ junk).get? 8 = some (s.sarCountCh1 % 65536 / 256 % 256) := by
      rw [hfill]; rfl
    have g9 : (fillBuffer s ++ junk).get? 9 = some (s.sarCountCh1 % 65536 % 256) := by
      rw [hfill]; rfl
    have g10 : (fillBuffer s ++ junk).get? 10 = some (s.sarCountCh2 % 65536 / 256 % 256) := by
      rw [hfill]; rfl
    have g11 : (fillBuffer s ++ junk).get? 11 = some (s.sarCountCh2 % 65536 % 256) := by
      rw [hfill]; rfl
    have g12 : (fillBuffer s ++ junk).get? 12 = some (toU16 s.amplitude / 256 % 256) := by
      rw [hfill]; rfl
    have g13 : (fillBuffer s ++ junk).get? 13 = some (toU16 s.amplitude % 256) := by
      rw [hfill]; rfl
    unfold Decoder
    rw [if_neg (not_not_intro rfl)]
    rw [if_neg (not_not_intro (by rw [jsGet_eq _ 0 47 g0]; decide))]
    simp only [DecoderBody]
    rw [jsGet_eq _ 1 123 g1]
    have t0 : jsTestBit (.num ((123 : ℕ) : ℚ)) 0 = true := by decide
    have t1 : jsTestBit (.num ((123 : ℕ) : ℚ)) 1 = true := by decide
    have t2 : jsTestBit (.num ((123 : ℕ) : ℚ)) 2 = false := by decide
    have t3 : jsTestBit (.num ((123 : ℕ) : ℚ)) 3 = true := by decide
    have t4 : jsTestBit (.num ((123 : ℕ) : ℚ)) 4 = true := by decide
    have t5 : jsTestBit (.num ((123 : ℕ) : ℚ)) 5 = true := by decide
    have t6 : jsTestBit (.num ((123 : ℕ) : ℚ)) 6 = true := by decide
    simp only [t0, t1, t2, t3, t4, t5, t6, if_true, if_false, Bool.false_eq_true]
    rw [DecodeV_eq _ 2 s.vBat hvb g2 g3]
    dsimp only
    rw [DecodeV_eq _ 4 s.vBus hvu g4 g5]
    dsimp only
    rw [DecodeU16_put2uf _ 6 s.sarCountCh0 hc0 g6 g7]
    dsimp only
    rw [DecodeU16_put2uf _ 8 s.sarCountCh1 hc1 g8 g9]
    dsimp only
    rw [DecodeU16_put2uf _ 10 s.sarCountCh2 hc2 g10 g11]
    dsimp only
    rw [DecodeI16_eq _ 12 s.amplitude ha1 ha2 g12 g13]
    unfold expectedDecode
    rw [hfp]
    simp
  | false =>
    have hfill : fillBuffer s =
        [47, 3,
         toU16 ⌊s.vBat * 4096⌋ / 256 % 256, toU16 ⌊s.vBat * 4096⌋ % 256,
         toU16 ⌊s.vBus * 4096⌋ / 256 % 256, toU16 ⌊s.vBus * 4096⌋ % 256] := by
      unfold fillBuffer putV put2sf put2
      rw [hfp]
      norm_num
      decide
    have g0 : (fillBuffer s ++ junk).get? 0 = some 47 := by rw [hfill]; rfl
    have g1 : (fillBuffer s ++ junk).get? 1 = some 3 := by rw [hfill]; rfl
    have g2 : (fillBuffer s ++ junk).get? 2 = some (toU16 ⌊s.vBat * 4096⌋ / 256 % 256) := by
      rw [hfill]; rfl
    have g3 : (fillBuffer s ++ junk).get? 3 = some (toU16 ⌊s.vBat * 4096⌋ % 256) := by
      rw [hfill]; rfl
    have g4 : (fillBuffer s ++ junk).get? 4 = some (toU16 ⌊s.vBus * 4096⌋ / 256 % 256) := by
      rw [hfill]; rfl
    have g5 : (fillBuffer s ++ junk).get? 5 = some (toU16 ⌊s.vBus * 4096⌋ % 256) := by
      rw [hfill]; rfl
    unfold Decoder
    rw [if_neg (not_not_intro rfl)]
    rw [if_neg (not_not_intro (by rw [jsGet_eq _ 0 47 g0]; decide))]
    simp only [DecoderBody]
    rw [jsGet_eq _ 1 3 g1]
    have t0 : jsTestBit (.num ((3 : ℕ) : ℚ)) 0 = true := by decide
    have t1 : jsTestBit (.num ((3 : ℕ) : ℚ)) 1 = true := by decide
    have t2 : jsTestBit (.num ((3 : ℕ) : ℚ)) 2 = false := by decide
    have t3 : jsTestBit (.num ((3 : ℕ) : ℚ)) 3 = false := by decide
    have t4 : jsTestBit (.num ((3 : ℕ) : ℚ)) 4 = false := by decide
    have t5 : jsTestBit (.num ((3 : ℕ) : ℚ)) 5 = false := by decide
    have t6 : jsTestBit (.num ((3 : ℕ) : ℚ)) 6 = false := by decide
    simp only [t0, t1, t2, t3, t4, t5, t6, if_true, if_false, Bool.false_eq_true]
    rw [DecodeV_eq _ 2 s.vBat hvb g2 g3]
    dsimp only
    rw [DecodeV_eq _ 4 s.vBus hvu g4 g5]
    unfold expectedDecode
    rw [hfp]
    simp

/-- C1: for every valid sample, decoding the encoded uplink payload on
port 1 with the backend decoder recovers the sample field-for-field:
battery and bus voltage come back exactly, the boot field is absent, and
the three SAR counts and the amplitude come back exactly when the sensor
was present and are absent otherwise. -/
theorem decode_fillBuffer (s : Sample) (hs : ValidSample s) :
    Decoder (fillBuffer s) 1 = some (expectedDecode s) := by
  have h := decode_fillBuffer_append s hs []
  rwa [List.append_nil] at h

/-- Closed witness for `decode_fillBuffer`: the sample with battery
3.0 V, bus 5.0 V, sensor present, SAR counts 120/80/40 and amplitude
-15 round-trips exactly. -/
theorem decode_fillBuffer_witness :
    Decoder (fillBuffer ⟨3, 5, true, 120, 80, 40, -15⟩) 1 =
      some (expectedDecode ⟨3, 5, true, 120, 80, 40, -15⟩) := by
  apply decode_fillBuffer
  refine ⟨⟨by norm_num, by norm_num, by norm_num⟩,
    ⟨by norm_num, by norm_num, by norm_num⟩, ?_, ?_, ?_, ?_, ?_⟩ <;> norm_num

/-! ## Theorems: flag/field correspondence (C2) and field presence (C10) -/

/-- Which field tags `fillBuffer` marks present for a given sample (per
the wire-format field table: 0 battery, 1 bus, 2 boot, 3/4/5 SAR counts,
6 amplitude). -/
def fieldPresent (s : Sample) : ℕ → Bool
  | 0 => true
  | 1 => true
  | 3 => s.fProximity
  | 4 => s.fProximity
  | 5 => s.fProximity
  | 6 => s.fProximity
  | _ => false

/-- The wire bytes of field `k` for a given sample, per the field
table.  Tag 2 (boot counter) is never emitted by this sketch. -/
def fieldBytes (s : Sample) : ℕ → List ℕ
  | 0 => putV s.vBat
  | 1 => putV s.vBus
  | 3 => put2uf s.sarCountCh0
  | 4 => put2uf s.sarCountCh1
  | 5 => put2uf s.sarCountCh2
  | 6 => put2sf s.amplitude
  | _ => []

/-- C2: every payload `fillBuffer` builds is the format byte, then a
flags byte, then data; the flags byte is the union of the tags of the
present fields; bit `k` of the flags byte is set iff field `k`'s bytes
are in the payload (bit 7 is always clear); and the data is exactly the
present fields' bytes concatenated in ascending tag order. -/
theorem fillBuffer_flag_field_correspondence (s : Sample) :
    ∃ flags data, fillBuffer s = 47 :: flags :: data ∧
      flags = ((((((if fieldPresent s 0 then 2 ^ 0 else 0) |||
                   (if fieldPresent s 1 then 2 ^ 1 else 0)) |||
                   (if fieldPresent s 2 then 2 ^ 2 else 0)) |||
                   (if fieldPresent s 3 then 2 ^ 3 else 0)) |||
                   (if fieldPresent s 4 then 2 ^ 4 else 0)) |||
                   (if fieldPresent s 5 then 2 ^ 5 else 0)) |||
                   (if fieldPresent s 6 then 2 ^ 6 else 0) ∧
      (∀ k, k < 8 → flags.testBit k = fieldPresent s k) ∧
      data = (if flags.testBit 0 then fieldBytes s 0 else []) ++
             (if flags.testBit 1 then fieldBytes s 1 else []) ++
             (if flags.testBit 2 then fieldBytes s 2 else []) ++
             (if flags.testBit 3 then fieldBytes s 3 else []) ++
             (if flags.testBit 4 then fieldBytes s 4 else []) ++
             (if flags.testBit 5 then fieldBytes s 5 else []) ++
             (if flags.testBit 6 then fieldBytes s 6 else []) := by
  cases hfp : s.fProximity with
  | true =>
    refine ⟨123, putV s.vBat ++ putV s.vBus ++ put2uf s.sarCountCh0 ++
      put2uf s.sarCountCh1 ++ put2uf s.sarCountCh2 ++ put2sf s.amplitude,
      ?_, ?_, ?_, ?_⟩
    · unfold fillBuffer
      rw [hfp]
      norm_num
      decide
    · simp only [fieldPresent, hfp, if_true, Bool.false_eq_true, if_false]
      decide
    · intro k hk
      interval_cases k <;> simp only [fieldPresent, hfp] <;> decide
    · simp only [fieldBytes]
      norm_num [Nat.testBit_to_div_mod]
  | false =>
    refine ⟨3, putV s.vBat ++ putV s.vBus, ?_, ?_, ?_, ?_⟩
    · unfold fillBuffer
      rw [hfp]
      norm_num
      decide
    · simp only [fieldPresent, hfp, if_true, Bool.false_eq_true, if_false]
      decide
    · intro k hk
      interval_cases k <;> simp only [fieldPresent, hfp] <;> decide
    · simp only [fieldBytes]
      norm_num [Nat.testBit_to_div_mod]

/-- Closed witness for `fillBuffer_flag_field_correspondence`: at a
concrete sample with the sensor present, the payload decomposes as
stated and bit 3 of the flags byte matches the presence of field 3. -/
theorem fillBuffer_flag_field_correspondence_witness :
    ∃ flags data, fillBuffer ⟨3, 5, true, 1, 2, 3, 4⟩ = 47 :: flags :: data ∧
      flags.testBit 3 = fieldPresent ⟨3, 5, true, 1, 2, 3, 4⟩ 3 := by
  obtain ⟨flags, data, h1, h2, h3, h4⟩ :=
    fillBuffer_flag_field_correspondence ⟨3, 5, true, 1, 2, 3, 4⟩
  exact ⟨flags, data, h1, h3 3 (by norm_num)⟩

/-- C10: in every payload the encoder builds, the battery-voltage bit 0
and the bus-voltage bit 1 are always set, the boot-counter bit 2 is
never set, and the SAR-count bits 3, 4, 5 and the amplitude bit 6 each
equal the proximity-found flag — so the four sensor fields are present
all together or absent all together. -/
theorem fillBuffer_presence_invariant (s : Sample) :
    ∃ flags data, fillBuffer s = 47 :: flags :: data ∧
      flags.testBit 0 = true ∧ flags.testBit 1 = true ∧
      flags.testBit 2 = false ∧
      flags.testBit 3 = s.fProximity ∧ flags.testBit 4 = s.fProximity ∧
      flags.testBit 5 = s.fProximity ∧ flags.testBit 6 = s.fProximity := by
  cases hfp : s.fProximity with
  | true =>
    refine ⟨123, putV s.vBat ++ putV s.vBus ++ put2uf s.sarCountCh0 ++
      put2uf s.sarCountCh1 ++ put2uf s.sarCountCh2 ++ put2sf s.amplitude,
      ?_, by decide, by decide, by decide, by decide, by decide,
      by decide, by decide⟩
    unfold fillBuffer
    rw [hfp]
    norm_num
    decide
  | false =>
    refine ⟨3, putV s.vBat ++ putV s.vBus,
      ?_, by decide, by decide, by decide, by decide, by decide,
      by decide, by decide⟩
    unfold fillBuffer
    rw [hfp]
    norm_num
    decide

/-! ## Theorems: decoder failure behaviour (C3) -/

theorem jsIs0x2f_iff (bytes : List ℕ) :
    jsIs0x2f (jsGet bytes 0) = true ↔ bytes.get? 0 = some 47 := by
  unfold jsGet
  cases h : bytes.get? 0 with
  | none => simp [jsIs0x2f]
  | some b =>
      simp only [jsIs0x2f, decide_eq_true_iff, Option.some_inj]
      constructor
      · intro hq
        exact_mod_cast hq
      · intro hb2
        exact_mod_cast hb2

/-- Counterexample to C3 as stated: on the truncated input
`[0x2f, 0x01]` — flags claim a battery voltage but no bytes follow —
the backend decoder does not fail: it returns an object whose `vBat` is
`NaN` (the JavaScript out-of-range reads propagate `NaN`). -/
theorem Decoder_truncated_returns_nan :
    Decoder [47, 1] 1 =
      some ⟨some JSNum.nan, none, none, none, none, none, none⟩ ∧
    Decoder [47, 1] 1 ≠ none := by
  refine ⟨by decide, by decide⟩

/-- C3 (amended): the backend decoder returns `null` exactly when the
port is not 1 or byte 0 is not the format version 0x2f; it never fails
on a truncated buffer (missing flagged fields come back as `NaN` or
`undefined` instead).  For each set flag bit, in ascending order, it
consumes exactly the fixed width of that field: appending junk after an
encoded payload never changes the decoded object. -/
theorem Decoder_failure_and_consumption :
    (∀ (bytes : List ℕ) (port : ℕ),
      Decoder bytes port = none ↔ ¬ (port = 1 ∧ bytes.get? 0 = some 47)) ∧
    (∀ (s : Sample) (junk : List ℕ), ValidSample s →
      Decoder (fillBuffer s ++ junk) 1 = Decoder (fillBuffer s) 1) := by
  constructor
  · intro bytes port
    unfold Decoder
    by_cases hp : port = 1
    · by_cases hf : bytes.get? 0 = some 47
      · rw [if_neg (not_not_intro hp),
          if_neg (not_not_intro ((jsIs0x2f_iff bytes).mpr hf))]
        constructor
        · intro hno
          exact (Option.some_ne_none _ hno).elim
        · intro hno
          exact (hno ⟨hp, hf⟩).elim
      · rw [if_neg (not_not_intro hp),
          if_pos (fun hc => hf ((jsIs0x2f_iff bytes).mp hc))]
        constructor
        · intro _ hcon
          exact hf hcon.2
        · intro _
          rfl
    · rw [if_pos hp]
      constructor
      · intro _ hcon
        exact hp hcon.1
      · intro _
        rfl
  · intro s junk hs
    rw [decode_fillBuffer_append s hs junk]
    have h := decode_fillBuffer_append s hs []
    rw [List.append_nil] at h
    rw [h]

/-- Closed witness for `Decoder_failure_and_consumption`: a wrong format
byte is rejected, and junk after a well-formed payload is ignored. -/
theorem Decoder_failure_and_consumption_witness :
    Decoder [0, 1] 1 = none ∧
    Decoder (fillBuffer ⟨3, 5, false, 0, 0, 0, 0⟩ ++ [9, 9]) 1 =
      Decoder (fillBuffer ⟨3, 5, false, 0, 0, 0, 0⟩) 1 := by
  constructor
  · exact (Decoder_failure_and_consumption.1 [0, 1] 1).mpr (by decide)
  · exact Decoder_failure_and_consumption.2 ⟨3, 5, false, 0, 0, 0, 0⟩ [9, 9]
      ⟨⟨by norm_num, by norm_num, by norm_num⟩,
       ⟨by norm_num, by norm_num, by norm_num⟩,
       by norm_num, by norm_num, by norm_num, by norm_num, by norm_num⟩

/-! ## Theorems: sleep policy (C4) -/

/-- C4: for all 16 combinations of {deepSleepTest, debuggerAttached,
disableDeepSleep, unattended}, the sleep-mode decision of `checkDeepSleep`
follows the strict first-match-wins priority order, which collapses to:
deep sleep exactly when `deepSleepTest` is set, or no debugger is attached,
deep sleep is not disabled, and `unattended` is set.  In particular
`deepSleepTest` forces deep sleep regardless of the other flags, and a
debugger attached on an unattended unit still gives light sleep. -/
theorem checkDeepSleep_priority_table :
    (∀ a b c d : Bool,
      checkDeepSleep ⟨a, b, c, d⟩ = (a || (!b && !c && d))) ∧
    (∀ b c d : Bool, checkDeepSleep ⟨true, b, c, d⟩ = true) ∧
    (∀ c d : Bool, checkDeepSleep ⟨false, true, c, d⟩ = false) ∧
    (∀ d : Bool, checkDeepSleep ⟨false, false, true, d⟩ = false) ∧
    checkDeepSleep ⟨false, false, false, true⟩ = true ∧
    checkDeepSleep ⟨false, false, false, false⟩ = false := by
  refine ⟨?_, ?_, ?_, ?_, ?_, ?_⟩
  · intro a b c d; cases a <;> cases b <;> cases c <;> cases d <;> rfl
  · intro b c d; cases b <;> cases c <;> cases d <;> rfl
  · intro c d; cases c <;> cases d <;> rfl
  · intro d; cases d <;> rfl
  · rfl
  · rfl

/-! ## Theorems: downlink bounds validation (C5) -/

/-- C5: a 2- or 3-byte downlink on port 1 reads its first two bytes as a
big-endian 16-bit interval; it is rejected (state unchanged) exactly when
the interval is below `CATCFG_T_MIN` or above `CATCFG_T_MAX`, both
boundary values being accepted, and an accepted message stores the
interval. -/
theorem receiveMessage_bounds (st : TxState) (a b : ℕ) (rest : List ℕ)
    (ha : a < 256) (hb : b < 256) (hrest : rest.length ≤ 1) :
    (a * 256 + b < CATCFG_T_MIN ∨ CATCFG_T_MAX < a * 256 + b →
      receiveMessage st 1 (a :: b :: rest) = st) ∧
    (CATCFG_T_MIN ≤ a * 256 + b → a * 256 + b ≤ CATCFG_T_MAX →
      (receiveMessage st 1 (a :: b :: rest)).gTxCycle = a * 256 + b) := by
  have hb8 : b < 2 ^ 8 := hb
  have hbe : ((a <<< 8) ||| b) = a * 256 + b := by
    rw [Nat.shiftLeft_eq, Nat.mul_comm a (2 ^ 8), ← Nat.mul_add_lt_is_or hb8 a]
  have hlen : (a :: b :: rest).length = rest.length + 2 := by simp
  have hsz : (1 : ℕ) = 1 ∧ 2 ≤ (a :: b :: rest).length ∧ (a :: b :: rest).length ≤ 3 :=
    ⟨rfl, by omega, by omega⟩
  constructor
  · intro hrange
    unfold receiveMessage
    rw [if_neg (by norm_num), if_neg (not_not_intro hsz)]
    simp only [List.getD_cons_zero, List.getD_cons_succ]
    rw [hbe, if_pos hrange]
  · intro h1 h2
    unfold receiveMessage
    rw [if_neg (by norm_num), if_neg (not_not_intro hsz)]
    simp only [List.getD_cons_zero, List.getD_cons_succ]
    rw [hbe, if_neg (by omega)]
    rfl

/-- Closed witness for `receiveMessage_bounds`: a 30-second downlink
`[0x00, 0x1E]` is in range and stored, a 5-second downlink `[0x00, 0x05]`
is rejected leaving the prior state. -/
theorem receiveMessage_bounds_witness :
    (receiveMessage ⟨360, 0⟩ 1 [0, 30]).gTxCycle = 30 ∧
    receiveMessage ⟨360, 0⟩ 1 [0, 5] = ⟨360, 0⟩ := by
  constructor
  · exact ((receiveMessage_bounds ⟨360, 0⟩ 0 30 [] (by decide) (by decide)
      (by decide)).2 (by decide) (by decide))
  · exact ((receiveMessage_bounds ⟨360, 0⟩ 0 5 [] (by decide) (by decide)
      (by decide)).1 (by decide))

/-! ## Theorems: downlink length validation and repeat count (C6) -/

/-- C6: on a non-zero port, only 2- or 3-byte messages on port 1 are
accepted, anything else leaves the configuration unchanged; an accepted
3-byte message stores its third byte as the repeat count, and an accepted
2-byte message stores the compiled default `CATCFG_INTERVAL_COUNT`. -/
theorem receiveMessage_length_and_repeat :
    (∀ (st : TxState) (port : ℕ) (msg : List ℕ),
      port ≠ 0 → ¬ (port = 1 ∧ 2 ≤ msg.length ∧ msg.length ≤ 3) →
      receiveMessage st port msg = st) ∧
    (∀ (st : TxState) (a b c : ℕ), b < 256 →
      CATCFG_T_MIN ≤ a * 256 + b → a * 256 + b ≤ CATCFG_T_MAX →
      receiveMessage st 1 [a, b, c] = setTxCycleTime (a * 256 + b) c) ∧
    (∀ (st : TxState) (a b : ℕ), b < 256 →
      CATCFG_T_MIN ≤ a * 256 + b → a * 256 + b ≤ CATCFG_T_MAX →
      receiveMessage st 1 [a, b] = setTxCycleTime (a * 256 + b) CATCFG_INTERVAL_COUNT) := by
  refine ⟨?_, ?_, ?_⟩
  · intro st port msg hport hbad
    unfold receiveMessage
    rw [if_neg hport, if_pos hbad]
  · intro st a b c hb h1 h2
    have hbe : ((a <<< 8) ||| b) = a * 256 + b := by
      rw [Nat.shiftLeft_eq, Nat.mul_comm a (2 ^ 8),
        ← Nat.mul_add_lt_is_or (show b < 2 ^ 8 from hb) a]
    unfold receiveMessage
    rw [if_neg (by norm_num), if_neg (not_not_intro ⟨rfl, by simp, by simp⟩)]
    simp only [List.getD_cons_zero, List.getD_cons_succ]
    rw [hbe, if_neg (by omega)]
    rfl
  · intro st a b hb h1 h2
    have hbe : ((a <<< 8) ||| b) = a * 256 + b := by
      rw [Nat.shiftLeft_eq, Nat.mul_comm a (2 ^ 8),
        ← Nat.mul_add_lt_is_or (show b < 2 ^ 8 from hb) a]
    unfold receiveMessage
    rw [if_neg (by norm_num), if_neg (not_not_intro ⟨rfl, by simp, by simp⟩)]
    simp only [List.getD_cons_zero, List.getD_cons_succ]
    rw [hbe, if_neg (by omega)]
    rfl

/-- Closed witness for `receiveMessage_length_and_repeat`: a 4-byte
message is discarded; `[0, 30, 7]` stores repeat count 7; `[0, 30]`
stores the default repeat count 30. -/
theorem receiveMessage_length_and_repeat_witness :
    receiveMessage ⟨360, 0⟩ 2 [1, 2, 3, 4] = ⟨360, 0⟩ ∧
    receiveMessage ⟨360, 0⟩ 1 [0, 30, 7] = setTxCycleTime 30 7 ∧
    receiveMessage ⟨360, 0⟩ 1 [0, 30] = setTxCycleTime 30 CATCFG_INTERVAL_COUNT := by
  refine ⟨?_, ?_, ?_⟩
  · exact receiveMessage_length_and_repeat.1 ⟨360, 0⟩ 2 [1, 2, 3, 4]
      (by decide) (by decide)
  · exact receiveMessage_length_and_repeat.2.1 ⟨360, 0⟩ 0 30 7
      (by decide) (by decide) (by decide)
  · exact receiveMessage_length_and_repeat.2.2 ⟨360, 0⟩ 0 30
      (by decide) (by decide) (by decide)

/-! ## Theorems: repeat-count decrement (C7) -/

/-- Counts above one decrement by exactly one per cycle down to one. -/
theorem updateSleepCounters_countdown (m i : ℕ) :
    updateSleepCounters^[m] ⟨i, m + 1⟩ = ⟨i, 1⟩ := by
  induction m generalizing i with
  | zero => rfl
  | succ k ih =>
      rw [Function.iterate_succ_apply]
      have hstep : updateSleepCounters ⟨i, k + 1 + 1⟩ = ⟨i, k + 1⟩ := by
        unfold updateSleepCounters
        dsimp only
        rw [if_pos (by omega)]
        congr 1
      rw [hstep, ih]

/-- C7: starting from a remaining-repeat counter `N > 1`, each cycle
decrements it by one so that it reaches exactly 1 after `N - 1` cycles
(with the interval untouched); the cycle on which it equals 1 resets the
interval to the compiled default `CATCFG_T_CYCLE` and the counter to 0
(the sticky marker); and from counter 0 every future cycle leaves both
values unchanged. -/
theorem updateSleepCounters_decrement :
    (∀ i N : ℕ, 1 < N →
      updateSleepCounters^[N - 1] ⟨i, N⟩ = ⟨i, 1⟩ ∧
      updateSleepCounters^[N] ⟨i, N⟩ = ⟨CATCFG_T_CYCLE, 0⟩) ∧
    (∀ i k : ℕ, updateSleepCounters^[k] ⟨i, 0⟩ = ⟨i, 0⟩) := by
  constructor
  · intro i N hN
    obtain ⟨M, rfl⟩ : ∃ M, N = M + 1 + 1 := ⟨N - 2, by omega⟩
    have hfirst : updateSleepCounters^[M + 1 + 1 - 1] ⟨i, M + 1 + 1⟩ = ⟨i, 1⟩ :=
      updateSleepCounters_countdown (M + 1) i
    refine ⟨hfirst, ?_⟩
    rw [Function.iterate_succ_apply']
    have hlast : updateSleepCounters^[M + 1] ⟨i, M + 1 + 1⟩ = ⟨i, 1⟩ := hfirst
    rw [hlast]
    unfold updateSleepCounters
    dsimp only
    rw [if_neg (by omega), if_pos rfl]
  · intro i k
    induction k with
    | zero => rfl
    | succ m ih =>
        rw [Function.iterate_succ_apply]
        have hstep : updateSleepCounters ⟨i, 0⟩ = ⟨i, 0⟩ := by
          unfold updateSleepCounters
          dsimp only
          rw [if_neg (by omega), if_neg (by omega)]
        rw [hstep, ih]

/-- Closed witness for `updateSleepCounters_decrement`: from count 3 the
counter reads 1 after 2 cycles, and the third cycle resets to
`(CATCFG_T_CYCLE, 0)`; count 0 is sticky. -/
theorem updateSleepCounters_decrement_witness :
    updateSleepCounters^[2] ⟨77, 3⟩ = ⟨77, 1⟩ ∧
    updateSleepCounters^[3] ⟨77, 3⟩ = ⟨CATCFG_T_CYCLE, 0⟩ ∧
    updateSleepCounters^[5] ⟨44, 0⟩ = ⟨44, 0⟩ := by
  have h := updateSleepCounters_decrement.1 77 3 (by norm_num)
  exact ⟨h.1, h.2, updateSleepCounters_decrement.2 44 5⟩

/-! ## Theorems: reboot deadline (C8) -/

/-- C8: the reboot deadline is the compiled 30-day period plus a jitter
equal to the 16-bit random draw minus 32768 — hence in
`[-32768, +32767]` seconds — converted to milliseconds; the `uint32`
wrap-around never actually truncates it, and the settle-phase check
reboots exactly when the 32-bit millisecond clock exceeds the deadline. -/
theorem gRebootMs_deadline (rnd : ℕ) (h : rnd < 65536) :
    ∃ jitter : ℤ, jitter = (rnd : ℤ) - 32768 ∧
      -32768 ≤ jitter ∧ jitter ≤ 32767 ∧
      (gRebootMsOf rnd : ℤ) = ((CATCFG_T_REBOOT : ℤ) + jitter) * 1000 ∧
      gRebootMsOf rnd < 2 ^ 32 ∧
      ∀ nowMs : ℕ, rebootDue nowMs rnd = true ↔
        ((CATCFG_T_REBOOT : ℤ) + jitter) * 1000 < ((nowMs % 2 ^ 32 : ℕ) : ℤ) := by
  refine ⟨(rnd : ℤ) - 32768, rfl, by omega, by omega, ?_, ?_, ?_⟩
  · unfold gRebootMsOf CATCFG_T_REBOOT
    push_cast
    omega
  · unfold gRebootMsOf CATCFG_T_REBOOT
    omega
  · intro nowMs
    have hval : (gRebootMsOf rnd : ℤ) = ((CATCFG_T_REBOOT : ℤ) + ((rnd : ℤ) - 32768)) * 1000 := by
      unfold gRebootMsOf CATCFG_T_REBOOT
      push_cast
      omega
    unfold rebootDue
    rw [decide_eq_true_iff]
    omega

/-- Closed witness for `gRebootMs_deadline`: at random draw 40000 the
deadline is `(2592000 + 7232) * 1000 = 2599232000` milliseconds. -/
theorem gRebootMs_deadline_witness : gRebootMsOf 40000 = 2599232000 := by
  obtain ⟨j, hj, _, _, heq, _, _⟩ := gRebootMs_deadline 40000 (by norm_num)
  rw [hj] at heq
  unfold CATCFG_T_REBOOT at heq
  omega

/-! ## Theorems: unprovisioned send failure is terminal (C9) -/

/-- After a send failure while unprovisioned, the callback chain stops:
two steps later nothing is armed on the job slot, forever. -/
theorem cbRun_fail_unprovisioned_stops (statuses : ℕ → Bool) :
    ∀ n, cbRun false statuses (.sendDone false) (n + 2) = none := by
  intro n
  induction n with
  | zero => rfl
  | succ m ih =>
      show (match cbRun false statuses (.sendDone false) (m + 2) with
        | none => none
        | some c => cbStep false (statuses (m + 2)) c) = none
      rw [ih]

/-- C9: in every execution of the callback chain that starts from a send
completion with failure status while the device is not provisioned, no
subsequently active callback ever attempts a transmit (i.e.
`startSendingUplink` is never reached again), whatever statuses the
transport would report — there is no provisioning-restoring event inside
the chain, so this holds across all later steps. -/
theorem unprovisioned_failure_no_transmit (statuses : ℕ → Bool) (n : ℕ) (c : CycleCb)
    (h : cbRun false statuses (.sendDone false) n = some c) :
    cbTransmits c = false := by
  match n with
  | 0 =>
      simp only [cbRun] at h
      cases h
      rfl
  | 1 =>
      simp only [cbRun, cbStep] at h
      rw [if_pos (by simp)] at h
      cases h
      rfl
  | (m + 2) =>
      rw [cbRun_fail_unprovisioned_stops] at h
      cases h

/-- Closed witness for `unprovisioned_failure_no_transmit`: one step after
the unprovisioned failure the active callback is `txNotProvisionedCb`,
which does not transmit. -/
theorem unprovisioned_failure_no_transmit_witness :
    cbTransmits CycleCb.txNotProvisioned = false :=
  unprovisioned_failure_no_transmit (fun _ => false) 1 CycleCb.txNotProvisioned (by rfl)
